import Mathlib

/-!
Verification of the forecast-and-reorder core of main.py: the moving-average
forecaster, the trend classifier, the reorder-point calculator, and the
endpoint's falsy defaulting of stored product parameters.

Modelling conventions:
* Python ints are ℤ; sales quantities arrive as a List ℤ, oldest first.
* Python float arithmetic is modelled as exact rational arithmetic over ℚ.
  Every float the core manipulates is a small integer divided by 7, by 2 or
  by 3 and then scaled by 1.1, so the IEEE-754 rounding error never moves a
  value across a rounding boundary at the magnitudes involved.
* CPython round() (banker's rounding, half to even) is pyRound below.
* A Python function that can raise is embedded with an Option result;
  none marks the raising executions (here only ZeroDivisionError).
-/

namespace MLAgent

/-- CPython round() on a rational: round half to even, returning an integer. -/
def pyRound (q : ℚ) : ℤ :=
  if q - ⌊q⌋ < 1/2 then ⌊q⌋
  else if 1/2 < q - ⌊q⌋ then ⌊q⌋ + 1
  else if ⌊q⌋ % 2 = 0 then ⌊q⌋ else ⌊q⌋ + 1

/-- Python slice sales[-k:]: the whole list when k = 0, otherwise the last
min(k, len) elements. -/
def lastSlice (sales : List ℤ) (k : ℕ) : List ℤ :=
  if k = 0 then sales else sales.drop (sales.length - k)

/-- Embedding of moving_average_fcst (main.py lines 51-55):
empty series gives 0; otherwise the mean of sales[-k:] over min(k, len) is
inflated by (1 + buffer) and rounded with CPython round().  The none case is
Python's ZeroDivisionError, reachable only with k = 0 on a non-empty list. -/
def moving_average_fcst (sales : List ℤ) (k : ℕ) (buffer : ℚ) : Option ℤ :=
  if sales.length = 0 then some 0
  else if min k sales.length = 0 then none
  else some (pyRound ((((lastSlice sales k).sum : ℚ) / (min k sales.length : ℕ)) * (1 + buffer)))

/-- Embedding of trend (main.py lines 57-60): compare the last two elements;
the getD default is never consulted because of the length guard. -/
def trend (sales : List ℤ) : String :=
  if sales.length < 2 then "stable"
  else if sales.getD (sales.length - 1) 0 > sales.getD (sales.length - 2) 0 then "increasing"
  else if sales.getD (sales.length - 1) 0 < sales.getD (sales.length - 2) 0 then "declining"
  else "stable"

/-- Lead time in whole weeks: max(1, round(lead_time_days / 7)), main.py line 63. -/
def lead_weeks (lead_time_days : ℤ) : ℤ :=
  max 1 (pyRound ((lead_time_days : ℚ) / 7))

/-- Reorder point: weekly_fcst * lead_weeks + safety_stock, main.py line 64. -/
def reorder_point (weekly_fcst lead_time_days safety_stock : ℤ) : ℤ :=
  weekly_fcst * lead_weeks lead_time_days + safety_stock

/-- Embedding of reorder_calc (main.py lines 62-69).  Below the reorder point
the gap is floored by the minimum order quantity; otherwise do nothing. -/
def reorder_calc (stock_on_hand weekly_fcst lead_time_days moq safety_stock : ℤ) :
    String × ℤ :=
  if stock_on_hand < reorder_point weekly_fcst lead_time_days safety_stock then
    ("reorder", max moq (reorder_point weekly_fcst lead_time_days safety_stock - stock_on_hand))
  else
    ("do_nothing", 0)

/-- Python falsy coalescing value or default on a nullable integer column:
both NULL (none) and 0 fall back to the default. -/
def pyOr (x : Option ℤ) (d : ℤ) : ℤ :=
  match x with
  | none => d
  | some v => if v = 0 then d else v

/-- Core of the endpoint forecast_and_reorder (main.py lines 82-98) once the
product row and the sales series are in hand: forecast, trend, then the
reorder decision with the stored parameters defaulted through pyOr.  The
result packs (next_week, trend, action, reorder_qty). -/
def forecast_and_reorder (stock_on_hand : ℤ)
    (lead_time_days moq safety_stock : Option ℤ) (sales : List ℤ) :
    Option (ℤ × String × String × ℤ) :=
  (moving_average_fcst sales 3 (1/10)).map fun fcst =>
    let ar := reorder_calc stock_on_hand fcst (pyOr lead_time_days 7)
      (pyOr moq 0) (pyOr safety_stock 0)
    (fcst, trend sales, ar.1, ar.2)

/-- Rounding a non-negative rational with CPython round() gives a
non-negative integer. -/
theorem pyRound_nonneg (q : ℚ) (h : 0 ≤ q) : 0 ≤ pyRound q := by
  have h0 : 0 ≤ ⌊q⌋ := Int.floor_nonneg.mpr h
  unfold pyRound
  split_ifs <;> omega

/-- Floor of an integer divided by 7 over ℚ is integer division by 7. -/
theorem floor_intCast_div_seven (n : ℤ) : ⌊(n : ℚ) / 7⌋ = n / 7 := by
  simpa using Rat.floor_intCast_div_natCast n 7

/-- CPython round() of n/7 is nearest-integer division: no tie is possible
because 2*n = 7*(2k+1) has no integer solution, so half-to-even coincides
with round-to-nearest, computable as (n + 3) / 7. -/
theorem pyRound_intCast_div_seven (n : ℤ) : pyRound ((n : ℚ) / 7) = (n + 3) / 7 := by
  have hfl := floor_intCast_div_seven n
  have hmod : n % 7 = n - 7 * (n / 7) := by omega
  have hfrac : (n : ℚ) / 7 - (⌊(n : ℚ) / 7⌋ : ℚ) = ((n % 7 : ℤ) : ℚ) / 7 := by
    rw [hfl, hmod]
    push_cast
    ring
  have h0 : 0 ≤ n % 7 := by omega
  have h7 : n % 7 < 7 := by omega
  unfold pyRound
  rw [hfrac, hfl]
  rcases lt_or_le (n % 7) 4 with hr | hr
  · have hlt : ((n % 7 : ℤ) : ℚ) / 7 < 1 / 2 := by
      rw [div_lt_div_iff₀ (by norm_num) (by norm_num)]
      have hc : ((n % 7 : ℤ) : ℚ) ≤ 3 := by exact_mod_cast (by omega : n % 7 ≤ 3)
      linarith
    rw [if_pos hlt]
    omega
  · have hgt : 1 / 2 < ((n % 7 : ℤ) : ℚ) / 7 := by
      rw [div_lt_div_iff₀ (by norm_num) (by norm_num)]
      have hc : (4 : ℚ) ≤ ((n % 7 : ℤ) : ℚ) := by exact_mod_cast hr
      linarith
    rw [if_neg (by linarith), if_pos hgt]
    omega

/-- The lead-week conversion in closed integer form. -/
theorem lead_weeks_eq (lead : ℤ) : lead_weeks lead = max 1 ((lead + 3) / 7) := by
  unfold lead_weeks
  rw [pyRound_intCast_div_seven]

/-- Indexing the last element of l ++ [b, a]. -/
theorem getD_append_pair_last (l : List ℤ) (b a d : ℤ) :
    (l ++ [b, a]).getD (l.length + 1) d = a := by
  induction l with
  | nil => rfl
  | cons x t ih => simpa using ih

/-- Indexing the second-to-last element of l ++ [b, a]. -/
theorem getD_append_pair_first (l : List ℤ) (b a d : ℤ) :
    (l ++ [b, a]).getD l.length d = b := by
  induction l with
  | nil => rfl
  | cons x t ih => simpa using ih

/-- Closed form of the forecaster on a non-empty series at the default
window k = 3 and buffer 0.10: CPython round() of the mean of the last
min(3, len) elements scaled by 11/10. -/
theorem moving_average_fcst_eq (s : List ℤ) (hne : s.length ≠ 0) :
    moving_average_fcst s 3 (1/10) =
      some (pyRound ((((s.drop (s.length - min 3 s.length)).sum : ℚ) /
        ((min 3 s.length : ℕ) : ℚ)) * (11/10))) := by
  have hmin : min 3 s.length ≠ 0 := by omega
  have hdrop : s.length - 3 = s.length - min 3 s.length := by omega
  unfold moving_average_fcst lastSlice
  rw [if_neg hne, if_neg hmin, if_neg (by norm_num : ¬ (3 = 0)), hdrop]
  norm_num

/-- Modelled from the spec: the nearest whole number of weeks in an integer
count of days, well defined because an integer number of days never sits
exactly halfway between two whole weeks. -/
def nearest_weeks (lead_time_days : ℤ) : ℤ := (lead_time_days + 3) / 7

/-- The nearest-weeks value is within half a week (3.5 days, hence 3 whole
days) of the exact quotient, so it is the round-to-nearest of days / 7. -/
theorem nearest_weeks_within_half (lead : ℤ) :
    7 * nearest_weeks lead - 3 ≤ lead ∧ lead ≤ 7 * nearest_weeks lead + 3 := by
  unfold nearest_weeks
  omega

/-- C1, counterexample: on sales = [4, 5, 9] the code returns 7 while the
claimed value floor(mean([4,5,9]) * 1.1) = floor(6.6) is 6 — the source
rounds with CPython round(), it does not truncate toward zero. -/
theorem C1_counterexample :
    moving_average_fcst [4, 5, 9] 3 (1/10) = some 7 ∧
    ⌊(((4 + 5 + 9 : ℤ) : ℚ) / 3) * (1 + 1/10)⌋ = 6 := by
  constructor
  · norm_num [moving_average_fcst, lastSlice, pyRound]
  · norm_num

/-- C1, amended: for every non-empty list of non-negative integers the
forecaster returns CPython round() (half to even) of the mean of the last
min(3, len) elements inflated by 1.1, and that value is non-negative. -/
theorem C1_amended (s : List ℤ) (hne : s ≠ []) (hpos : ∀ x ∈ s, 0 ≤ x) :
    moving_average_fcst s 3 (1/10) =
      some (pyRound ((((s.drop (s.length - min 3 s.length)).sum : ℚ) /
        ((min 3 s.length : ℕ) : ℚ)) * (11/10))) ∧
    0 ≤ pyRound ((((s.drop (s.length - min 3 s.length)).sum : ℚ) /
        ((min 3 s.length : ℕ) : ℚ)) * (11/10)) := by
  have hlen : s.length ≠ 0 := fun h0 => hne (List.length_eq_zero.mp h0)
  refine ⟨moving_average_fcst_eq s hlen, pyRound_nonneg _ ?_⟩
  apply mul_nonneg
  · apply div_nonneg
    · exact_mod_cast List.sum_nonneg (fun x hx => hpos x (List.drop_subset _ s hx))
    · positivity
  · norm_num

theorem C1_amended_witness :
    moving_average_fcst [4, 5, 9] 3 (1/10) =
      some (pyRound (((([(4:ℤ), 5, 9].drop ([(4:ℤ), 5, 9].length -
        min 3 [(4:ℤ), 5, 9].length)).sum : ℚ) /
        ((min 3 [(4:ℤ), 5, 9].length : ℕ) : ℚ)) * (11/10))) ∧
    0 ≤ pyRound (((([(4:ℤ), 5, 9].drop ([(4:ℤ), 5, 9].length -
        min 3 [(4:ℤ), 5, 9].length)).sum : ℚ) /
        ((min 3 [(4:ℤ), 5, 9].length : ℕ) : ℚ)) * (11/10)) :=
  C1_amended [4, 5, 9] (by decide) (by decide)

/-- C6: on the empty sales series the forecaster yields 0 and the trend is
stable, with no failing execution. -/
theorem C6_empty :
    moving_average_fcst ([] : List ℤ) 3 (1/10) = some 0 ∧
    trend ([] : List ℤ) = "stable" :=
  ⟨rfl, rfl⟩

/-- C5: on a series of length at least two, written l ++ [b, a] with last
element a and second-to-last b, the trend is increasing iff b < a,
declining iff a < b, stable iff a = b; shorter series are stable. -/
theorem C5_trend (s : List ℤ) :
    (s.length < 2 → trend s = "stable") ∧
    (∀ (l : List ℤ) (a b : ℤ), s = l ++ [b, a] →
      ((trend s = "increasing" ↔ b < a) ∧
       (trend s = "declining" ↔ a < b) ∧
       (trend s = "stable" ↔ a = b))) := by
  constructor
  · intro h
    unfold trend
    rw [if_pos h]
  · rintro l a b rfl
    have hlen : (l ++ [b, a]).length = l.length + 2 := by simp
    have hlast : (l ++ [b, a]).getD ((l ++ [b, a]).length - 1) 0 = a := by
      rw [hlen]
      simpa using getD_append_pair_last l b a 0
    have hfirst : (l ++ [b, a]).getD ((l ++ [b, a]).length - 2) 0 = b := by
      rw [hlen]
      simpa using getD_append_pair_first l b a 0
    unfold trend
    rw [if_neg (by omega), hlast, hfirst]
    rcases lt_trichotomy b a with h | h | h
    · rw [if_pos h]
      refine ⟨?_, ?_, ?_⟩ <;> constructor <;> intro hh
      all_goals first
        | rfl
        | assumption
        | exact absurd hh (by decide)
        | exact absurd hh (by omega)
    · rw [if_neg (by omega), if_neg (by omega)]
      refine ⟨?_, ?_, ?_⟩ <;> constructor <;> intro hh
      all_goals first
        | rfl
        | omega
        | exact absurd hh (by decide)
    · rw [if_neg (by omega), if_pos h]
      refine ⟨?_, ?_, ?_⟩ <;> constructor <;> intro hh
      all_goals first
        | rfl
        | assumption
        | exact absurd hh (by decide)
        | exact absurd hh (by omega)

theorem C5_trend_witness : trend [(1:ℤ), 2] = "increasing" :=
  (((C5_trend [(1:ℤ), 2]).2 [] 2 1 rfl).1).mpr (by norm_num)

/-- C8: the default-window forecast only looks at the last min(3, len)
elements: feeding the forecaster just that suffix gives the same result,
so short series shrink the window instead of failing. -/
theorem C8_window (s : List ℤ) (hne : s ≠ []) :
    moving_average_fcst (lastSlice s 3) 3 (1/10) = moving_average_fcst s 3 (1/10) := by
  have hlen : s.length ≠ 0 := fun h0 => hne (List.length_eq_zero.mp h0)
  have hlast : lastSlice s 3 = s.drop (s.length - 3) := by
    unfold lastSlice
    norm_num
  have hlen' : (lastSlice s 3).length = min 3 s.length := by
    rw [hlast, List.length_drop]
    omega
  have hne' : (lastSlice s 3).length ≠ 0 := by omega
  rw [moving_average_fcst_eq _ hne', moving_average_fcst_eq s hlen]
  have hzero : (lastSlice s 3).length - min 3 (lastSlice s 3).length = 0 := by omega
  rw [hzero, List.drop_zero, hlen', hlast]
  have hsub : s.length - min 3 s.length = s.length - 3 := by omega
  have hmin2 : min 3 (min 3 s.length) = min 3 s.length := by omega
  rw [hsub, hmin2]

theorem C8_window_witness :
    moving_average_fcst (lastSlice [1, 2, 3, 4] 3) 3 (1/10) =
      moving_average_fcst [1, 2, 3, 4] 3 (1/10) :=
  C8_window [1, 2, 3, 4] (by decide)

/-- C7: the core functions are total on non-negative series — the default
forecaster never hits the ZeroDivisionError branch, the trend classifier
always yields one of the three labels, and the reorder calculator always
yields one of the two actions on validated parameters. -/
theorem C7_total (s : List ℤ) (_hpos : ∀ x ∈ s, 0 ≤ x) :
    (moving_average_fcst s 3 (1/10)).isSome = true ∧
    (trend s = "increasing" ∨ trend s = "declining" ∨ trend s = "stable") ∧
    (∀ stock f lead moq ss : ℤ, 0 ≤ stock → 0 ≤ f → 0 < lead → 0 ≤ moq → 0 ≤ ss →
      ((reorder_calc stock f lead moq ss).1 = "reorder" ∨
       (reorder_calc stock f lead moq ss).1 = "do_nothing")) := by
  refine ⟨?_, ?_, ?_⟩
  · by_cases h0 : s.length = 0
    · unfold moving_average_fcst
      rw [if_pos h0]
      rfl
    · rw [moving_average_fcst_eq s h0]
      rfl
  · unfold trend
    split_ifs <;> simp
  · intro stock f lead moq ss _ _ _ _ _
    unfold reorder_calc
    split_ifs <;> simp

theorem C7_total_witness :
    (moving_average_fcst [1, 2, 3] 3 (1/10)).isSome = true ∧
    (trend [(1:ℤ), 2, 3] = "increasing" ∨ trend [(1:ℤ), 2, 3] = "declining" ∨
      trend [(1:ℤ), 2, 3] = "stable") ∧
    ((reorder_calc 5 11 14 3 2).1 = "reorder" ∨
     (reorder_calc 5 11 14 3 2).1 = "do_nothing") :=
  ⟨(C7_total [1, 2, 3] (by decide)).1,
   (C7_total [1, 2, 3] (by decide)).2.1,
   (C7_total [1, 2, 3] (by decide)).2.2 5 11 14 3 2 (by norm_num) (by norm_num)
     (by norm_num) (by norm_num) (by norm_num)⟩

/-- C2: the reorder calculator follows the spec formula — lead weeks are the
nearest whole number of weeks floored at 1, the reorder point is
forecast * leadWeeks + safetyStock, and the action/quantity are chosen by
comparing stock to the reorder point; on (forecast 11, stock 5, lead 14,
MOQ 3, safety 2) it returns ("reorder", 19). -/
theorem C2_reorder_formula (f stock lead moq ss : ℤ)
    (_hf : 0 ≤ f) (_hs : 0 ≤ stock) (_hl : 0 < lead) (_hm : 0 ≤ moq) (_hss : 0 ≤ ss) :
    (reorder_calc stock f lead moq ss =
      if stock < f * max 1 (nearest_weeks lead) + ss then
        ("reorder", max moq (f * max 1 (nearest_weeks lead) + ss - stock))
      else ("do_nothing", 0)) ∧
    reorder_calc 5 11 14 3 2 = ("reorder", 19) := by
  constructor
  · unfold reorder_calc reorder_point nearest_weeks
    rw [lead_weeks_eq]
  · norm_num [reorder_calc, reorder_point, lead_weeks, pyRound]

theorem C2_reorder_formula_witness :
    (reorder_calc 5 11 14 3 2 =
      if (5:ℤ) < 11 * max 1 (nearest_weeks 14) + 2 then
        ("reorder", max 3 (11 * max 1 (nearest_weeks 14) + 2 - 5))
      else ("do_nothing", 0)) ∧
    reorder_calc 5 11 14 3 2 = ("reorder", 19) :=
  C2_reorder_formula 11 5 14 3 2 (by norm_num) (by norm_num) (by norm_num)
    (by norm_num) (by norm_num)

/-- C3: the decision invariant — quantity is 0 on do_nothing and at least
the minimum order quantity on reorder. -/
theorem C3_invariant (stock f lead moq ss : ℤ)
    (_hf : 0 ≤ f) (_hs : 0 ≤ stock) (_hl : 0 < lead) (_hm : 0 ≤ moq) (_hss : 0 ≤ ss) :
    ((reorder_calc stock f lead moq ss).1 = "do_nothing" →
      (reorder_calc stock f lead moq ss).2 = 0) ∧
    ((reorder_calc stock f lead moq ss).1 = "reorder" →
      moq ≤ (reorder_calc stock f lead moq ss).2) := by
  unfold reorder_calc
  split_ifs with h
  · exact ⟨fun hd => absurd hd (by simp), fun _ => le_max_left _ _⟩
  · exact ⟨fun _ => rfl, fun hr => absurd hr (by decide)⟩

theorem C3_invariant_witness :
    ((reorder_calc 20 13 7 0 0).1 = "do_nothing" →
      (reorder_calc 20 13 7 0 0).2 = 0) ∧
    ((reorder_calc 20 13 7 0 0).1 = "reorder" →
      (0:ℤ) ≤ (reorder_calc 20 13 7 0 0).2) :=
  C3_invariant 20 13 7 0 0 (by norm_num) (by norm_num) (by norm_num)
    (by norm_num) (by norm_num)

/-- C4: with the other parameters fixed, the quantity is non-increasing in
stock on hand, and the action is reorder exactly below the reorder point,
so it flips once, at stock = reorder point. -/
theorem C4_monotone (f lead moq ss s1 s2 : ℤ) (h : s1 ≤ s2) :
    (reorder_calc s2 f lead moq ss).2 ≤ (reorder_calc s1 f lead moq ss).2 ∧
    (∀ stock : ℤ, ((reorder_calc stock f lead moq ss).1 = "reorder" ↔
      stock < reorder_point f lead ss)) := by
  constructor
  · unfold reorder_calc
    split_ifs with h1 h2 h2
    · exact max_le_max le_rfl (by omega)
    · omega
    · have h3 := le_max_right moq (reorder_point f lead ss - s1)
      show (0:ℤ) ≤ max moq (reorder_point f lead ss - s1)
      omega
    · exact le_rfl
  · intro stock
    unfold reorder_calc
    split_ifs with hc
    · simp [hc]
    · simp [hc]

theorem C4_monotone_witness :
    (reorder_calc 20 13 7 0 0).2 ≤ (reorder_calc 5 13 7 0 0).2 ∧
    ((reorder_calc 12 13 7 0 0).1 = "reorder" ↔ (12:ℤ) < reorder_point 13 7 0) :=
  ⟨(C4_monotone 13 7 0 0 5 20 (by norm_num)).1,
   (C4_monotone 13 7 0 0 5 20 (by norm_num)).2 12⟩

/-- C9: a reorder recommendation always carries a strictly positive
quantity, even with a minimum order quantity of 0, because on integers
stock < reorderPoint forces a gap of at least 1. -/
theorem C9_reorder_pos (stock f lead moq ss : ℤ)
    (h : (reorder_calc stock f lead moq ss).1 = "reorder") :
    1 ≤ (reorder_calc stock f lead moq ss).2 := by
  unfold reorder_calc at h ⊢
  split_ifs at h ⊢ with hlt
  · have h3 := le_max_right moq (reorder_point f lead ss - stock)
    show (1:ℤ) ≤ max moq (reorder_point f lead ss - stock)
    omega
  · exact absurd h (by decide)

theorem C9_reorder_pos_witness : 1 ≤ (reorder_calc 0 1 7 0 0).2 :=
  C9_reorder_pos 0 1 7 0 0
    (by norm_num [reorder_calc, reorder_point, lead_weeks, pyRound])

/-- C10: the endpoint defaults stored parameters with Python falsy
coalescing, so a stored lead time of 0 — not only NULL — becomes 7 before
the calculator runs, and MOQ/safety-stock values of 0 and NULL are
indistinguishable (both become 0). -/
theorem C10_falsy_defaults (stock : ℤ) (moq ss : Option ℤ) (sales : List ℤ) :
    forecast_and_reorder stock (some 0) moq ss sales =
      forecast_and_reorder stock none moq ss sales ∧
    forecast_and_reorder stock (some 0) moq ss sales =
      forecast_and_reorder stock (some 7) moq ss sales ∧
    pyOr (some 0) 7 = (7 : ℤ) ∧ pyOr none 7 = (7 : ℤ) ∧
    pyOr (some 0) 0 = (0 : ℤ) ∧ pyOr none 0 = (0 : ℤ) :=
  ⟨rfl, rfl, rfl, rfl, rfl, rfl⟩

end MLAgent
